import Mathlib

/-! # boulder-publisher bootstrap: registry assembly and exit paths

A shallow embedding of `cmd/boulder-publisher/main.go`.

* Go values: a `string` is a `String`, an `error` is an `Option String`
  (`none` is `nil`), a slice that may be `nil` is an `Option (List _)`.
* Collaborators that live in other packages (`issuance.LoadChain`,
  `NameID`, `publisher.GetCTBundleForChain`, `cmd.ReadConfigFile`,
  `TLS.Load`, the gRPC server builder and its start function) are fields of
  `Env`; every theorem quantifies over them.
* `mainOnArgs` is the whole function `main`: from the arguments and the
  environment to the sequence of observable events and the way the process
  ends; `main` is its part from line 46 on, after `flag.Parse()` has returned.
-/

namespace BoulderPublisher

/-! ## Data model -/

/-- The part of `issuance.Certificate` that `main` reads: the subject common
name (`issuer.Subject.CommonName`) and the DER bytes. -/
structure Certificate where
  subjectCommonName : String
  raw : List Nat
deriving DecidableEq, Repr

/-- The Go type `issuance.IssuerNameID`, an integer identifier. -/
abbrev IssuerNameID := Int

/-- The Go type `ct.ASN1Cert`: one DER blob. -/
abbrev ASN1Cert := List Nat

/-- The Go type `[]ct.ASN1Cert`, the CT bundle of one chain. -/
abbrev Bundle := List ASN1Cert

/-- The Go map `map[issuance.IssuerNameID][]ct.ASN1Cert`, kept as a list of
entries in which no key occurs twice. -/
structure Registry where
  entries : List (IssuerNameID × Bundle)
deriving DecidableEq, Repr

namespace Registry

/-- The map made by `make(map[issuance.IssuerNameID][]ct.ASN1Cert)`. -/
def empty : Registry := ⟨[]⟩

/-- The lookup `bundles[id]` with its presence flag. -/
def lookup (m : Registry) (id : IssuerNameID) : Option Bundle :=
  (m.entries.find? (fun e => e.1 == id)).map (fun e => e.2)

/-- The flag `exists` of `_, exists := bundles[id]`. -/
def contains (m : Registry) (id : IssuerNameID) : Bool :=
  (m.lookup id).isSome

/-- The assignment `bundles[id] = b`: a present key is overwritten. -/
def store (m : Registry) (id : IssuerNameID) (b : Bundle) : Registry :=
  ⟨(id, b) :: m.entries.filter (fun e => e.1 != id)⟩

/-- The key set of the map, as a list. -/
def keys (m : Registry) : List IssuerNameID :=
  m.entries.map (fun e => e.1)

/-- The Go builtin `len(bundles)`. -/
def size (m : Registry) : Nat :=
  m.entries.length

end Registry

/-- The fields of `cmd.TLSConfig` that `c.Publisher.TLS` carries. -/
structure TLSConfig where
  certFile : String
  keyFile : String
  caCertFile : String
deriving DecidableEq, Repr

/-- The fields of `Config` that `main` reads or writes. `chains = none` is
the nil slice left by a configuration without the `chains` key. -/
structure Config where
  grpcAddress : String
  debugAddr : String
  blockProfileRate : Int
  userAgent : String
  chains : Option (List (List String))
  tls : TLSConfig
deriving DecidableEq, Repr

/-- The three command-line flags after `flag.Parse()`. -/
structure Flags where
  grpcAddr : String
  debugAddr : String
  configFile : String
deriving DecidableEq, Repr

/-- The collaborators of `main` that are defined outside the file. -/
structure Env where
  /-- The call `cmd.ReadConfigFile(path, &c)`. -/
  readConfigFile : String → Except String Config
  /-- The call `issuance.LoadChain(files)`. -/
  loadChain : List String → Except String (List Certificate)
  /-- The method `(*issuance.Certificate).NameID`. -/
  nameID : Certificate → IssuerNameID
  /-- The function `publisher.GetCTBundleForChain`. -/
  getCTBundleForChain : List Certificate → Bundle
  /-- The error of `c.Publisher.TLS.Load(scope)`. -/
  tlsLoad : TLSConfig → Option String
  /-- The error of `bgrpc.NewServer(...).Add(...).Build(...)`, by listen address. -/
  build : String → Option String
  /-- The error returned by `start()`; `none` is a clean return. -/
  start : Option String
  /-- The string `cmd.VersionString()`. -/
  versionString : String
  /-- Whether `cmd.Fail` unwinds the stack (so that deferred calls of `main`
  run before the process exits) or exits on the spot. -/
  failRunsDeferred : Bool
  /-- The table behind `strconv.IsPrint` for runes above U+00FF. -/
  isPrintWide : Char → Bool

/-! ## Observable behaviour -/

/-- What a run of `main` does that can be observed from outside. -/
inductive Event where
  | usage
  | flagError (msg : String)
  | readConfig (path : String)
  | featuresSet
  | setBlockProfileRate (rate : Int)
  | statsAndLogging (debugAddr : String)
  | info (msg : String)
  | auditErr (msg : String)
  | fail (msg : String)
  | tlsLoad
  | publisherNew (bundles : Registry) (userAgent : String)
  | serverBuild (address : String)
  | start
  | oTelShutdown
deriving DecidableEq, Repr

/-- How the process ends: an exit status, or the run-time panic of an index
out of range. -/
inductive Outcome where
  | exit (status : Nat)
  | panicked
deriving DecidableEq, Repr

/-- A finished run: the events in order and the way the process ended. -/
abbrev Run := List Event × Outcome

/-- Events `es` followed by the run `r`. -/
def after (es : List Event) (r : Run) : Run :=
  (es ++ r.1, r.2)

/-- Modelled from the spec: `cmd.Fail` (package `cmd`, outside this file) is the
fatal-error helper: it emits the diagnostic `msg` and terminates the process
with status 1. `deferred` are the deferred calls of `main` pending at the
call; they run first when the helper unwinds the stack and are skipped when
it exits on the spot. -/
def cmdFail (env : Env) (deferred : List Event) (msg : String) : Run :=
  if env.failRunsDeferred then (deferred ++ [Event.fail msg], Outcome.exit 1)
  else ([Event.fail msg], Outcome.exit 1)

/-- Modelled from the spec: the diagnostic of `cmd.FailOnError(err, msg)` for a
non-nil `err` (package `cmd`, outside this file): the static stage prefix
`msg` followed by the cause. -/
def failOnErrorMsg (msg err : String) : String :=
  msg ++ ": " ++ err

/-! ## The verb `%q` of `fmt.Sprintf` -/

/-- The double quote character. -/
def dquote : Char := Char.ofNat 34

/-- The backslash character. -/
def bslash : Char := Char.ofNat 92

/-- The digit `"0123456789abcdef"[n]` of `strconv`. -/
def lowerhex (n : Nat) : Char :=
  if n < 10 then Char.ofNat (48 + n) else Char.ofNat (87 + n)

/-- The function `strconv.IsPrint`; above U+00FF it consults a table. -/
def isPrint (wide : Char → Bool) (r : Char) : Bool :=
  if r.toNat ≤ 0xFF then
    if 0x20 ≤ r.toNat ∧ r.toNat ≤ 0x7E then true
    else if 0xA1 ≤ r.toNat ∧ r.toNat ≤ 0xFF then r.toNat != 0xAD
    else false
  else wide r

/-- The hexadecimal digits of `r` taken at the given shifts. -/
def hexDigits (r : Nat) (shifts : List Nat) : List Char :=
  shifts.map (fun s => lowerhex ((r >>> s) % 16))

/-- The function `appendEscapedRune` of `strconv` for the double quote, with
`ASCIIonly` and `graphicOnly` off: what one rune contributes to the quoted
string. -/
def appendEscapedRune (wide : Char → Bool) (r : Char) : List Char :=
  if r = dquote ∨ r = bslash then [bslash, r]
  else if isPrint wide r then [r]
  else if r.toNat = 7 then [bslash, 'a']
  else if r.toNat = 8 then [bslash, 'b']
  else if r.toNat = 12 then [bslash, 'f']
  else if r.toNat = 10 then [bslash, 'n']
  else if r.toNat = 13 then [bslash, 'r']
  else if r.toNat = 9 then [bslash, 't']
  else if r.toNat = 11 then [bslash, 'v']
  else if r.toNat < 32 ∨ r.toNat = 127 then
    [bslash, 'x', lowerhex (r.toNat / 16), lowerhex (r.toNat % 16)]
  else if r.toNat < 0x10000 then bslash :: 'u' :: hexDigits r.toNat [12, 8, 4, 0]
  else bslash :: 'U' :: hexDigits r.toNat [28, 24, 20, 16, 12, 8, 4, 0]

/-- The function `strconv.Quote`, which is what `%q` prints for a string. -/
def quote (wide : Char → Bool) (s : String) : String :=
  String.mk (dquote :: (s.data.map (appendEscapedRune wide)).flatten ++ [dquote])

/-- The message `fmt.Sprintf("Got multiple chains configured for issuer %q", cn)`. -/
def duplicateMsg (wide : Char → Bool) (cn : String) : String :=
  "Got multiple chains configured for issuer " ++ quote wide cn

/-- The string `t` occurs in `s` as a contiguous substring. -/
def Contains (s t : String) : Prop :=
  t.data <:+: s.data

instance (s t : String) : Decidable (Contains s t) :=
  inferInstanceAs (Decidable (t.data <:+: s.data))

/-! ## The registry loop of `main` -/

/-- How the loop over `c.Publisher.Chains` ends. -/
inductive LoopResult where
  | ok (bundles : Registry)
  | loadFailed (err : String)
  | emptyChain
  | duplicate (commonName : String)
deriving DecidableEq, Repr

/-- The loop `for _, files := range c.Publisher.Chains`, started on the map
`bundles`. -/
def assembleBundles (env : Env) : List (List String) → Registry → LoopResult
  | [], bundles => LoopResult.ok bundles
  | files :: rest, bundles =>
    match env.loadChain files with
    | Except.error err => LoopResult.loadFailed err
    | Except.ok chain =>
      match chain with
      | [] => LoopResult.emptyChain
      | issuer :: _ =>
        let id := env.nameID issuer
        if bundles.contains id then LoopResult.duplicate issuer.subjectCommonName
        else assembleBundles env rest (bundles.store id (env.getCTBundleForChain chain))

/-- The default of lines 64 to 66: an empty `UserAgent` becomes
`"certificate-transparency-go/1.0"`. -/
def resolveUserAgent (userAgent : String) : String :=
  if userAgent = "" then "certificate-transparency-go/1.0" else userAgent

/-- The flag overrides of lines 58 to 66 applied to the configuration read. -/
def applyOverrides (fl : Flags) (c : Config) : Config :=
  { c with
    grpcAddress := if fl.grpcAddr ≠ "" then fl.grpcAddr else c.grpcAddress
    debugAddr := if fl.debugAddr ≠ "" then fl.debugAddr else c.debugAddr
    userAgent := resolveUserAgent c.userAgent }

/-- Lines 88 to 99 of `main`: TLS, service construction, server build, start.
The deferred `oTelShutdown` is pending throughout. -/
def serve (env : Env) (c : Config) (bundles : Registry) : Run :=
  match env.tlsLoad c.tls with
  | some err => after [Event.tlsLoad] (cmdFail env [Event.oTelShutdown] (failOnErrorMsg "TLS config" err))
  | none =>
    match env.build c.grpcAddress with
    | some err =>
      after [Event.tlsLoad, Event.publisherNew bundles c.userAgent, Event.serverBuild c.grpcAddress]
        (cmdFail env [Event.oTelShutdown] (failOnErrorMsg "Unable to setup Publisher gRPC server" err))
    | none =>
      match env.start with
      | some err =>
        after [Event.tlsLoad, Event.publisherNew bundles c.userAgent,
               Event.serverBuild c.grpcAddress, Event.start]
          (cmdFail env [Event.oTelShutdown] (failOnErrorMsg "Publisher gRPC service failed" err))
      | none =>
        ([Event.tlsLoad, Event.publisherNew bundles c.userAgent,
          Event.serverBuild c.grpcAddress, Event.start, Event.oTelShutdown], Outcome.exit 0)

/-- Lines 71 to 99 of `main`, entered once `cmd.StatsAndLogging` has returned
and `oTelShutdown` is deferred. -/
def bootstrap (env : Env) (c : Config) : Run :=
  match c.chains with
  | none => ([Event.auditErr "No chain files provided"], Outcome.exit 1)
  | some chains =>
    match assembleBundles env chains Registry.empty with
    | LoopResult.loadFailed err =>
      cmdFail env [Event.oTelShutdown] (failOnErrorMsg "failed to load chain." err)
    | LoopResult.emptyChain => ([Event.oTelShutdown], Outcome.panicked)
    | LoopResult.duplicate cn =>
      cmdFail env [Event.oTelShutdown] (duplicateMsg env.isPrintWide cn)
    | LoopResult.ok bundles => serve env c bundles

/-- The events of lines 54 to 69, from `features.Set` to the version line. -/
def preamble (env : Env) (fl : Flags) (c : Config) : List Event :=
  [Event.readConfig fl.configFile, Event.featuresSet,
   Event.setBlockProfileRate c.blockProfileRate,
   Event.statsAndLogging c.debugAddr, Event.info env.versionString]

/-- The function `main` from line 46 on, run on the flag values that
`flag.Parse()` on line 45 has left; the whole function, `flag.Parse()`
included, is `mainOnArgs`. -/
def main (env : Env) (fl : Flags) : Run :=
  if fl.configFile = "" then ([Event.usage], Outcome.exit 1)
  else
    match env.readConfigFile fl.configFile with
    | Except.error err =>
      after [Event.readConfig fl.configFile]
        (cmdFail env [] (failOnErrorMsg "Reading JSON config file into config structure" err))
    | Except.ok c0 =>
      after (preamble env fl (applyOverrides fl c0)) (bootstrap env (applyOverrides fl c0))

/-! ## The command line: `flag.Parse()` -/

/-- How `flag.Parse()` on line 45 ends: it returns with the flag values set,
or it ends the process after `-h` or `-help`, or it ends the process on a
command line it rejects. -/
inductive ParseResult where
  | ok (fl : Flags)
  | help
  | failed (msg : String)
deriving DecidableEq, Repr

/-- What `parseOne` of package `flag` makes of one argument: not a flag (or
the terminator `--`), bad syntax, or a flag name with the value written after
an equals sign, if any. -/
inductive FlagArg where
  | stop
  | bad
  | named (name : String) (value : Option String)
deriving DecidableEq, Repr

/-- The text before the first equals sign, and the text after it if there is
one. -/
def splitEq : List Char → List Char × Option (List Char)
  | [] => ([], none)
  | c :: cs =>
    if c = '=' then ([], some cs)
    else ((c :: (splitEq cs).1), (splitEq cs).2)

/-- The name left after the minus signs: empty, or starting with a minus or
an equals sign, is bad syntax; an equals sign cannot come first. -/
def namedArg (name : List Char) : FlagArg :=
  match name with
  | [] => FlagArg.bad
  | c :: cs =>
    if c = '-' ∨ c = '=' then FlagArg.bad
    else FlagArg.named (String.mk (c :: (splitEq cs).1)) ((splitEq cs).2.map String.mk)

/-- The first steps of `parseOne`: an argument shorter than two characters or
not starting with a minus ends the flags, and so does `--`; one or two
leading minus signs are dropped. -/
def readArg (s : String) : FlagArg :=
  match s.data with
  | [] => FlagArg.stop
  | [_] => FlagArg.stop
  | c :: d :: cs =>
    if c ≠ '-' then FlagArg.stop
    else if d = '-' then
      (if cs = [] then FlagArg.stop else namedArg cs)
    else namedArg (d :: cs)

/-- The three flags defined on lines 42 to 44, all of type string; `none` for
a name that is not defined. -/
def setFlag (fl : Flags) (name value : String) : Option Flags :=
  if name = "addr" then some { fl with grpcAddr := value }
  else if name = "debug-addr" then some { fl with debugAddr := value }
  else if name = "config" then some { fl with configFile := value }
  else none

/-- The end of `parseOne` on a name that is not defined: `help` and `h` ask
for the usage text, any other name is an error. -/
def undefinedFlag (name : String) : ParseResult :=
  if name = "help" ∨ name = "h" then ParseResult.help
  else ParseResult.failed ("flag provided but not defined: -" ++ name)

/-- The loop of `FlagSet.Parse` over the arguments, with the flag values set
so far: a string flag without an equals sign takes the next argument as its
value. -/
def flagParseFrom : List String → Flags → ParseResult
  | [], fl => ParseResult.ok fl
  | [s], fl =>
    match readArg s with
    | FlagArg.stop => ParseResult.ok fl
    | FlagArg.bad => ParseResult.failed ("bad flag syntax: " ++ s)
    | FlagArg.named name (some value) =>
      match setFlag fl name value with
      | some fl2 => ParseResult.ok fl2
      | none => undefinedFlag name
    | FlagArg.named name none =>
      match setFlag fl name "" with
      | some _ => ParseResult.failed ("flag needs an argument: -" ++ name)
      | none => undefinedFlag name
  | s :: next :: rest, fl =>
    match readArg s with
    | FlagArg.stop => ParseResult.ok fl
    | FlagArg.bad => ParseResult.failed ("bad flag syntax: " ++ s)
    | FlagArg.named name (some value) =>
      match setFlag fl name value with
      | some fl2 => flagParseFrom (next :: rest) fl2
      | none => undefinedFlag name
    | FlagArg.named name none =>
      match setFlag fl name next with
      | some fl2 => flagParseFrom rest fl2
      | none => undefinedFlag name

/-- The call `flag.Parse()` on the arguments after the program name; the
three flags default to the empty string. -/
def flagParse (args : List String) : ParseResult :=
  flagParseFrom args ⟨"", "", ""⟩

/-- The whole function `main`, from line 42, on the arguments after the
program name. The command-line flag set exits on error: after `-h` or `-help`
it prints the usage text and exits with status 0, on a command line it rejects
it prints the error and the usage text and exits with status 2; otherwise
`main` goes on from line 46. -/
def mainOnArgs (env : Env) (args : List String) : Run :=
  match flagParse args with
  | ParseResult.help => ([Event.usage], Outcome.exit 0)
  | ParseResult.failed msg => ([Event.flagError msg, Event.usage], Outcome.exit 2)
  | ParseResult.ok fl => main env fl

/-! ## Vocabulary of the claims -/

/-- The registry entry a configured chain stands for: the `NameID` of the
first certificate that `issuance.LoadChain` returns, and the CT bundle of the
whole loaded chain. `none` when the chain does not load or loads empty. -/
def entryOf (env : Env) (files : List String) : Option (IssuerNameID × Bundle) :=
  match env.loadChain files with
  | Except.ok (issuer :: rest) =>
    some (env.nameID issuer, env.getCTBundleForChain (issuer :: rest))
  | _ => none

/-- The Issuer-ID a configured chain derives from its first certificate. -/
def firstID (env : Env) (files : List String) : Option IssuerNameID :=
  (entryOf env files).map Prod.fst

/-- The chain loads: `issuance.LoadChain` succeeds with a non-empty sequence. -/
def loads (env : Env) (files : List String) : Bool :=
  (entryOf env files).isSome

/-- Every configured chain loads. -/
def AllLoad (env : Env) (chains : List (List String)) : Prop :=
  ∀ files ∈ chains, loads env files = true

/-- No two configured chains derive the same Issuer-ID. -/
def Distinct (env : Env) (chains : List (List String)) : Prop :=
  (chains.map (firstID env)).Nodup

instance (env : Env) (chains : List (List String)) : Decidable (AllLoad env chains) :=
  inferInstanceAs (Decidable (∀ files ∈ chains, loads env files = true))

instance (env : Env) (chains : List (List String)) : Decidable (Distinct env chains) :=
  inferInstanceAs (Decidable (chains.map (firstID env)).Nodup)

/-- The registry a conflict-free list of chains stands for. -/
def registryOf (env : Env) (chains : List (List String)) : Registry :=
  ⟨(chains.filterMap (entryOf env)).reverse⟩

/-- No chain of `chains` derives an Issuer-ID that is already a key of `m`. -/
def Fresh (env : Env) (chains : List (List String)) (m : Registry) : Prop :=
  ∀ files ∈ chains, ∀ id, firstID env files = some id → m.contains id = false

/-- The events that construct, build or start the service. -/
def isServiceEvent : Event → Bool
  | Event.publisherNew _ _ => true
  | Event.serverBuild _ => true
  | Event.start => true
  | _ => false

/-- The texts of the diagnostics in a sequence of events: what `logger.Info`,
`logger.AuditErr` and `cmd.Fail` were given. -/
def messages : List Event → List String
  | [] => []
  | Event.info msg :: es => msg :: messages es
  | Event.auditErr msg :: es => msg :: messages es
  | Event.fail msg :: es => msg :: messages es
  | _ :: es => messages es

/-- The user-visible diagnostics: the usage text and every logged or fatal
message. -/
def isDiagnostic : Event → Bool
  | Event.usage => true
  | Event.flagError _ => true
  | Event.info _ => true
  | Event.auditErr _ => true
  | Event.fail _ => true
  | _ => false

/-- The call `cmd.StatsAndLogging`. -/
def isStatsAndLogging : Event → Bool
  | Event.statsAndLogging _ => true
  | _ => false

/-- The events of a run that precede the first call of `cmd.StatsAndLogging`
(all of them when it is never called). -/
def beforeLogging (es : List Event) : List Event :=
  es.takeWhile (fun e => !isStatsAndLogging e)

/-! ## Structural validation of `Chains` -/

/-- The struct tag of `Config.Publisher.Chains`. -/
def chainsTag : String := "min=1,dive,min=2,dive,required"

/-- One comma-separated item of a `validate` tag. -/
inductive Rule where
  | min (n : Nat)
  | required
  | dive
  | unknown
deriving DecidableEq, Repr

/-- The items of a tag: the text between commas. -/
def splitComma : List Char → List (List Char)
  | [] => [[]]
  | c :: cs =>
    if c = ',' then [] :: splitComma cs
    else
      match splitComma cs with
      | [] => [[c]]
      | w :: ws => (c :: w) :: ws

/-- The number written by a list of decimal digits, read after `acc`. -/
def parseDigits : List Char → Nat → Option Nat
  | [], acc => some acc
  | c :: cs, acc =>
    if 48 ≤ c.toNat ∧ c.toNat ≤ 57 then parseDigits cs (10 * acc + (c.toNat - 48)) else none

/-- The rule an item names. -/
def parseRule (w : List Char) : Rule :=
  if w = "dive".data then Rule.dive
  else if w = "required".data then Rule.required
  else
    match w with
    | 'm' :: 'i' :: 'n' :: '=' :: d :: ds =>
      match parseDigits (d :: ds) 0 with
      | some n => Rule.min n
      | none => Rule.unknown
    | _ => Rule.unknown

/-- The rules of a tag, in order. -/
def parseTag (tag : String) : List Rule :=
  (splitComma tag.data).map parseRule

/-- The rules of a tag grouped by level: `dive` ends a level and opens the
level of the elements. -/
def splitDive : List Rule → List (List Rule)
  | [] => [[]]
  | r :: rs =>
    if r = Rule.dive then [] :: splitDive rs
    else
      match splitDive rs with
      | [] => [[r]]
      | lvl :: lvls => (r :: lvl) :: lvls

/-- Modelled from the spec: the check of one rule on a slice, as run by the
validation behind `cmd.ConfigValidator` (outside this file): `min=n` asks for
at least `n` elements (a nil slice has none), `required` for a non-nil slice;
a rule that is not known is a failure. -/
def sliceRule (isNil : Bool) (len : Nat) : Rule → Bool
  | Rule.min n => decide (n ≤ len)
  | Rule.required => !isNil
  | _ => false

/-- Modelled from the spec: the check of one rule on a string, as run by the
validation behind `cmd.ConfigValidator` (outside this file): `min=n` asks for
at least `n` characters, `required` for a non-empty string; a rule that is not
known is a failure. -/
def stringRule (s : String) : Rule → Bool
  | Rule.min n => decide (n ≤ s.length)
  | Rule.required => decide (s ≠ "")
  | _ => false

/-- Modelled from the spec: the structural validation of a `[][]string` field
under a three-level tag, as run by the validation behind `cmd.ConfigValidator`
(outside this file): the first level is checked on the outer slice, the second
on every chain, the third on every path. -/
def validateChains (tag : String) (chains : Option (List (List String))) : Bool :=
  match splitDive (parseTag tag) with
  | [outer, middle, inner] =>
    outer.all (sliceRule chains.isNone (chains.getD []).length) &&
      (chains.getD []).all (fun chain =>
        middle.all (sliceRule false chain.length) &&
          chain.all (fun path => inner.all (stringRule path)))
  | _ => false

/-! ## Concrete inputs -/

/-- An issuing intermediate. -/
def certA : Certificate := ⟨"Issuer A", [1, 0]⟩

/-- A certificate with the subject of `certA` under another key. -/
def certACross : Certificate := ⟨"Issuer A", [1, 7]⟩

/-- A second issuing intermediate. -/
def certB : Certificate := ⟨"Issuer B", [2, 0]⟩

/-- A root. -/
def certRoot : Certificate := ⟨"Root", [3, 0]⟩

/-- An issuing intermediate whose common name holds a double quote: the
three characters a, double quote, b. -/
def certQ : Certificate := ⟨String.mk ['a', dquote, 'b'], [4, 0]⟩

/-- A chain loader over a handful of files. -/
def demoLoadChain : List String → Except String (List Certificate)
  | ["a", "x"] => Except.ok [certA, certACross]
  | ["q", "r"] => Except.ok [certQ, certRoot]
  | ["q", "x"] => Except.ok [certQ, certACross]
  | ["b", "r"] => Except.ok [certB, certRoot]
  | ["a", "r"] => Except.ok [certA, certRoot]
  | ["e"] => Except.ok []
  | _ => Except.error "open: no such file"

/-- An identifier that depends on the first byte only. -/
def demoNameID (c : Certificate) : IssuerNameID :=
  Int.ofNat (c.raw.headD 0)

/-- The bundle made of the DER bytes of every certificate, in order. -/
def demoBundle (chain : List Certificate) : Bundle :=
  chain.map (fun c => c.raw)

/-- A configuration with the given user agent and chains. -/
def demoConfig (ua : String) (chains : Option (List (List String))) : Config :=
  { grpcAddress := "127.0.0.1:8000", debugAddr := ":8001", blockProfileRate := 0,
    userAgent := ua, chains := chains, tls := ⟨"c", "k", "ca"⟩ }

/-- An environment in which the file `cfg` holds the configuration `c` and
every later step succeeds. -/
def demoEnv (c : Config) : Env :=
  { readConfigFile := fun path => if path = "cfg" then Except.ok c else Except.error "open failed"
    loadChain := demoLoadChain
    nameID := demoNameID
    getCTBundleForChain := demoBundle
    tlsLoad := fun _ => none
    build := fun _ => none
    start := none
    versionString := "v"
    failRunsDeferred := false
    isPrintWide := fun _ => true }

/-- The command line `--config cfg`. -/
def demoFlags : Flags := ⟨"", "", "cfg"⟩

/-- Two chains with distinct issuers; the first repeats its Issuer-ID at
position 1. -/
def twoChains : List (List String) := [["a", "x"], ["b", "r"]]

/-- Two chains with the same issuer. -/
def clashChains : List (List String) := [["a", "x"], ["b", "r"], ["a", "r"]]

/-- The environment whose configuration declares `twoChains` and no user
agent. -/
def envTwo : Env := demoEnv (demoConfig "" (some twoChains))

/-- The environment whose configuration declares `clashChains`. -/
def envClash : Env := demoEnv (demoConfig "" (some clashChains))

/-- Two chains whose common issuer has a double quote in its common name. -/
def quoteChains : List (List String) := [["q", "r"], ["q", "x"]]

/-- The environment whose configuration declares `quoteChains`. -/
def envQuote : Env := demoEnv (demoConfig "" (some quoteChains))

/-- The environment whose configuration has no `chains` key. -/
def envNil : Env := demoEnv (demoConfig "" none)

/-- The environment whose configuration has the empty list under `chains`. -/
def envEmpty : Env := demoEnv (demoConfig "" (some []))

/-- The command line without `--config`. -/
def noFlags : Flags := ⟨"", "", ""⟩

/-- The command line `--config nope`, naming a file that cannot be read. -/
def badFlags : Flags := ⟨"", "", "nope"⟩

/-! ## Lemmas on the map -/

theorem Registry.contains_false_iff (m : Registry) (id : IssuerNameID) :
    m.contains id = false ↔ id ∉ m.keys := by
  obtain ⟨es⟩ := m
  simp only [Registry.contains, Registry.lookup, Registry.keys, Option.isSome_map']
  induction es with
  | nil => simp
  | cons e es ih =>
    by_cases h : e.1 = id
    · simp [List.find?_cons, h]
    · have h2 : ¬ id = e.1 := fun h3 => h h3.symm
      simp [List.find?_cons, h, h2, ih]

theorem Registry.store_fresh (m : Registry) (id : IssuerNameID) (b : Bundle)
    (h : m.contains id = false) : m.store id b = ⟨(id, b) :: m.entries⟩ := by
  rw [Registry.contains_false_iff] at h
  simp only [Registry.store, Registry.mk.injEq, List.cons.injEq, true_and]
  rw [List.filter_eq_self]
  intro e he
  simp only [bne_iff_ne, ne_eq]
  intro h2
  exact h (by simp only [Registry.keys, List.mem_map]; exact ⟨e, he, h2⟩)

theorem lookup_of_mem (es : List (IssuerNameID × Bundle)) (hn : (es.map Prod.fst).Nodup)
    (k : IssuerNameID) (v : Bundle) (h : (k, v) ∈ es) :
    Registry.lookup ⟨es⟩ k = some v := by
  induction es with
  | nil => simp at h
  | cons e es ih =>
    simp only [List.map_cons, List.nodup_cons] at hn
    by_cases hk : e.1 = k
    · simp only [Registry.lookup, List.find?_cons, hk, beq_self_eq_true, Option.map_some']
      rcases List.mem_cons.mp h with h1 | h1
      · rw [← h1]
      · exact absurd (List.mem_map.mpr ⟨(k, v), h1, hk.symm⟩) hn.1
    · rcases List.mem_cons.mp h with h1 | h1
      · exact absurd (by rw [← h1]) hk
      · have h2 := ih hn.2 h1
        have h3 : (e.1 == k) = false := by simpa using hk
        simp only [Registry.lookup] at h2 ⊢
        rw [List.find?_cons, h3]
        exact h2

theorem mem_of_lookup (es : List (IssuerNameID × Bundle))
    (k : IssuerNameID) (v : Bundle) (h : Registry.lookup ⟨es⟩ k = some v) : (k, v) ∈ es := by
  simp only [Registry.lookup, Option.map_eq_some'] at h
  obtain ⟨e, he, hv⟩ := h
  have h1 := List.mem_of_find?_eq_some he
  have h2 := List.find?_some he
  simp only [beq_iff_eq] at h2
  rw [← h2, ← hv]
  exact h1

/-! ## Lemmas on the loop -/

theorem entryOf_of_loads (env : Env) (files : List String) (h : loads env files = true) :
    ∃ c cs, env.loadChain files = Except.ok (c :: cs) ∧
      entryOf env files = some (env.nameID c, env.getCTBundleForChain (c :: cs)) := by
  unfold loads entryOf at h
  unfold entryOf
  cases hl : env.loadChain files with
  | error e => simp [hl] at h
  | ok chain =>
    cases chain with
    | nil => simp [hl] at h
    | cons c cs => exact ⟨c, cs, rfl, rfl⟩

theorem fresh_nil (env : Env) (chains : List (List String)) :
    Fresh env chains Registry.empty := by
  intro files _ id _
  rfl

theorem assembleBundles_spec (env : Env) (chains : List (List String)) :
    ∀ m : Registry, AllLoad env chains →
      ((Distinct env chains ∧ Fresh env chains m) →
        assembleBundles env chains m =
          LoopResult.ok ⟨(chains.filterMap (entryOf env)).reverse ++ m.entries⟩) ∧
      (¬ (Distinct env chains ∧ Fresh env chains m) →
        ∃ cn, assembleBundles env chains m = LoopResult.duplicate cn) := by
  induction chains with
  | nil =>
    intro m _
    refine ⟨fun _ => by simp [assembleBundles], fun h => ?_⟩
    exact absurd ⟨by simp [Distinct], fun _ hf => by simp at hf⟩ h
  | cons files rest ih =>
    intro m hall
    have hrest : AllLoad env rest := fun f hf => hall f (List.mem_cons_of_mem _ hf)
    obtain ⟨c, cs, hl, he⟩ := entryOf_of_loads env files (hall files (List.mem_cons_self _ _))
    have hid : firstID env files = some (env.nameID c) := by simp [firstID, he]
    by_cases hc : m.contains (env.nameID c) = true
    · -- the key is present: `cmd.Fail`
      refine ⟨fun h => ?_, fun _ => ⟨c.subjectCommonName, by simp [assembleBundles, hl, hc]⟩⟩
      have := h.2 files (List.mem_cons_self _ _) _ hid
      rw [hc] at this
      exact absurd this (by simp)
    · have hc2 : m.contains (env.nameID c) = false := by simpa using hc
      have hstep : assembleBundles env (files :: rest) m =
          assembleBundles env rest ⟨(env.nameID c, env.getCTBundleForChain (c :: cs)) :: m.entries⟩ := by
        simp only [assembleBundles, hl, hc2, Bool.false_eq_true, if_false]
        rw [Registry.store_fresh _ _ _ hc2]
      have hcond : (Distinct env (files :: rest) ∧ Fresh env (files :: rest) m) ↔
          (Distinct env rest ∧
            Fresh env rest ⟨(env.nameID c, env.getCTBundleForChain (c :: cs)) :: m.entries⟩) := by
        constructor
        · rintro ⟨hd, hf⟩
          simp only [Distinct, List.map_cons, List.nodup_cons] at hd
          refine ⟨hd.2, fun f hfm id hfid => ?_⟩
          rw [Registry.contains_false_iff]
          have h1 := hf f (List.mem_cons_of_mem _ hfm) id hfid
          rw [Registry.contains_false_iff] at h1
          simp only [Registry.keys, List.map_cons, List.mem_cons, not_or]
          refine ⟨fun hEq => hd.1 ?_, h1⟩
          rw [hid]
          exact List.mem_map.mpr ⟨f, hfm, by rw [hfid, hEq]⟩
        · rintro ⟨hd, hf⟩
          refine ⟨?_, fun f hfm id hfid => ?_⟩
          · simp only [Distinct, List.map_cons, List.nodup_cons]
            refine ⟨fun hmem => ?_, hd⟩
            obtain ⟨f, hfm, hfid⟩ := List.mem_map.mp hmem
            have h1 := hf f hfm (env.nameID c) (by rw [hfid, hid])
            rw [Registry.contains_false_iff] at h1
            exact h1 (by simp [Registry.keys])
          · rcases List.mem_cons.mp hfm with h1 | h1
            · subst h1
              rw [hid] at hfid
              cases hfid
              exact hc2
            · have h2 := hf f h1 id hfid
              rw [Registry.contains_false_iff] at h2 ⊢
              simp only [Registry.keys, List.map_cons, List.mem_cons, not_or] at h2
              exact h2.2
      obtain ⟨ih1, ih2⟩ :=
        ih ⟨(env.nameID c, env.getCTBundleForChain (c :: cs)) :: m.entries⟩ hrest
      refine ⟨fun h => ?_, fun h => ?_⟩
      · rw [hstep, ih1 (hcond.mp h)]
        simp [List.filterMap_cons, he]
      · rw [hstep]
        exact ih2 (fun h2 => h (hcond.mpr h2))

theorem assembleBundles_ok (env : Env) (chains : List (List String))
    (hall : AllLoad env chains) (hd : Distinct env chains) :
    assembleBundles env chains Registry.empty = LoopResult.ok (registryOf env chains) := by
  have h := (assembleBundles_spec env chains Registry.empty hall).1 ⟨hd, fresh_nil env chains⟩
  simpa [registryOf, Registry.empty] using h

theorem assembleBundles_duplicate (env : Env) (chains : List (List String))
    (hall : AllLoad env chains) (hd : ¬ Distinct env chains) :
    ∃ cn, assembleBundles env chains Registry.empty = LoopResult.duplicate cn :=
  (assembleBundles_spec env chains Registry.empty hall).2 (fun h => hd h.1)

theorem assembleBundles_append (env : Env) (pre rest : List (List String)) :
    ∀ m : Registry, assembleBundles env (pre ++ rest) m =
      match assembleBundles env pre m with
      | LoopResult.ok m1 => assembleBundles env rest m1
      | r => r := by
  induction pre with
  | nil => intro m; simp [assembleBundles]
  | cons files pre ih =>
    intro m
    simp only [List.cons_append, assembleBundles]
    cases hl : env.loadChain files with
    | error e => simp
    | ok chain =>
      cases chain with
      | nil => simp
      | cons c cs =>
        simp only
        split
        · rfl
        · exact ih _

theorem registryOf_keys_nodup (env : Env) (chains : List (List String))
    (hd : Distinct env chains) :
    (((chains.filterMap (entryOf env)).reverse).map Prod.fst).Nodup := by
  rw [List.map_reverse, List.nodup_reverse]
  unfold Distinct firstID at hd
  induction chains with
  | nil => simp
  | cons files rest ih =>
    simp only [List.map_cons, List.nodup_cons] at hd
    cases he : entryOf env files with
    | none => simpa [List.filterMap_cons, he] using ih hd.2
    | some e =>
      simp only [List.filterMap_cons, he, List.map_cons, List.nodup_cons]
      refine ⟨fun hmem => hd.1 ?_, ih hd.2⟩
      obtain ⟨e2, he2, hk⟩ := List.mem_map.mp hmem
      obtain ⟨f, hf, hfe⟩ := List.mem_filterMap.mp he2
      exact List.mem_map.mpr ⟨f, hf, by simp [he, hfe, hk]⟩

theorem registryOf_lookup_iff (env : Env) (chains : List (List String))
    (hd : Distinct env chains) (k : IssuerNameID) (v : Bundle) :
    (registryOf env chains).lookup k = some v ↔
      ∃ files ∈ chains, entryOf env files = some (k, v) := by
  constructor
  · intro h
    have h1 := mem_of_lookup _ k v h
    rw [List.mem_reverse] at h1
    exact List.mem_filterMap.mp h1
  · rintro ⟨files, hf, he⟩
    refine lookup_of_mem _ (registryOf_keys_nodup env chains hd) k v ?_
    rw [List.mem_reverse]
    exact List.mem_filterMap.mpr ⟨files, hf, he⟩

/-! ## Lemmas on `main` -/

theorem main_no_config (env : Env) (fl : Flags) (h : fl.configFile = "") :
    main env fl = ([Event.usage], Outcome.exit 1) := by
  simp [main, h]

theorem main_read_error (env : Env) (fl : Flags) (err : String) (hc : fl.configFile ≠ "")
    (hr : env.readConfigFile fl.configFile = Except.error err) :
    main env fl = after [Event.readConfig fl.configFile]
      (cmdFail env [] (failOnErrorMsg "Reading JSON config file into config structure" err)) := by
  simp [main, hc, hr]

theorem main_read_ok (env : Env) (fl : Flags) (c0 : Config) (hc : fl.configFile ≠ "")
    (hr : env.readConfigFile fl.configFile = Except.ok c0) :
    main env fl = after (preamble env fl (applyOverrides fl c0))
      (bootstrap env (applyOverrides fl c0)) := by
  simp [main, hc, hr]

theorem cmdFail_outcome (env : Env) (d : List Event) (msg : String) :
    (cmdFail env d msg).2 = Outcome.exit 1 := by
  unfold cmdFail
  split <;> rfl

theorem cmdFail_events (env : Env) (d : List Event) (msg : String) (e : Event)
    (h : e ∈ (cmdFail env d msg).1) : e ∈ d ∨ e = Event.fail msg := by
  unfold cmdFail at h
  split at h
  · simpa using h
  · right; simpa using h

theorem fail_mem_cmdFail (env : Env) (d : List Event) (msg : String) :
    Event.fail msg ∈ (cmdFail env d msg).1 := by
  unfold cmdFail
  split <;> simp

theorem cmdFail_no_service (env : Env) (msg : String) (e : Event)
    (h : e ∈ (cmdFail env [Event.oTelShutdown] msg).1) : isServiceEvent e = false := by
  rcases cmdFail_events env _ msg e h with h1 | h1
  · simp only [List.mem_singleton] at h1
    subst h1; rfl
  · subst h1; rfl

theorem preamble_no_service (env : Env) (fl : Flags) (c : Config) (e : Event)
    (h : e ∈ preamble env fl c) : isServiceEvent e = false := by
  simp only [preamble, List.mem_cons, List.mem_singleton, List.not_mem_nil, or_false] at h
  rcases h with h | h | h | h | h <;> subst h <;> rfl

theorem publisherNew_mem_serve (env : Env) (c : Config) (m b : Registry) (ua : String)
    (h : Event.publisherNew b ua ∈ (serve env c m).1) : b = m ∧ ua = c.userAgent := by
  unfold serve at h
  split at h
  · simp only [after, List.singleton_append, List.mem_cons] at h
    rcases h with h | h
    · cases h
    · have := cmdFail_no_service env _ _ h
      simp [isServiceEvent] at this
  · split at h
    · simp only [after, List.cons_append, List.nil_append, List.mem_cons] at h
      rcases h with h | h | h | h
      · cases h
      · cases h; exact ⟨rfl, rfl⟩
      · cases h
      · have := cmdFail_no_service env _ _ h
        simp [isServiceEvent] at this
    · split at h
      · simp only [after, List.cons_append, List.nil_append, List.mem_cons] at h
        rcases h with h | h | h | h | h
        · cases h
        · cases h; exact ⟨rfl, rfl⟩
        · cases h
        · cases h
        · have := cmdFail_no_service env _ _ h
          simp [isServiceEvent] at this
      · simp only [List.mem_cons, List.mem_singleton, List.not_mem_nil, or_false] at h
        rcases h with h | h | h | h | h
        · cases h
        · cases h; exact ⟨rfl, rfl⟩
        · cases h
        · cases h
        · cases h

theorem publisherNew_mem_serve_of_tls (env : Env) (c : Config) (m : Registry)
    (h : env.tlsLoad c.tls = none) :
    Event.publisherNew m c.userAgent ∈ (serve env c m).1 := by
  unfold serve
  rw [h]
  simp only
  split
  · simp [after]
  · split <;> simp [after]

theorem bootstrap_of_loop (env : Env) (c : Config) (chains : List (List String)) (m : Registry)
    (hc : c.chains = some chains)
    (hl : assembleBundles env chains Registry.empty = LoopResult.ok m) :
    bootstrap env c = serve env c m := by
  simp [bootstrap, hc, hl]

theorem bootstrap_duplicate (env : Env) (c : Config) (chains : List (List String)) (cn : String)
    (hc : c.chains = some chains)
    (hl : assembleBundles env chains Registry.empty = LoopResult.duplicate cn) :
    bootstrap env c = cmdFail env [Event.oTelShutdown] (duplicateMsg env.isPrintWide cn) := by
  simp [bootstrap, hc, hl]

theorem applyOverrides_chains (fl : Flags) (c : Config) :
    (applyOverrides fl c).chains = c.chains := rfl

theorem applyOverrides_tls (fl : Flags) (c : Config) :
    (applyOverrides fl c).tls = c.tls := rfl

theorem applyOverrides_userAgent (fl : Flags) (c : Config) :
    (applyOverrides fl c).userAgent = resolveUserAgent c.userAgent := rfl

theorem mem_after (es : List Event) (r : Run) (e : Event) :
    e ∈ (after es r).1 ↔ e ∈ es ∨ e ∈ r.1 := by
  simp [after]

theorem after_outcome (es : List Event) (r : Run) : (after es r).2 = r.2 := rfl

theorem length_filterMap_entryOf (env : Env) (chains : List (List String))
    (hall : AllLoad env chains) : (chains.filterMap (entryOf env)).length = chains.length := by
  induction chains with
  | nil => rfl
  | cons files rest ih =>
    obtain ⟨c, cs, _, he⟩ := entryOf_of_loads env files (hall files (List.mem_cons_self _ _))
    simp [List.filterMap_cons, he, ih (fun f hf => hall f (List.mem_cons_of_mem _ hf))]

theorem registryOf_mem_keys (env : Env) (chains : List (List String)) (k : IssuerNameID) :
    k ∈ (registryOf env chains).keys ↔ ∃ files ∈ chains, firstID env files = some k := by
  simp only [registryOf, Registry.keys, List.map_reverse, List.mem_reverse, List.mem_map,
    List.mem_filterMap, firstID, Option.map_eq_some']
  constructor
  · rintro ⟨e, ⟨files, hf, he⟩, hk⟩
    exact ⟨files, hf, e, he, hk⟩
  · rintro ⟨files, hf, e, he, hk⟩
    exact ⟨e, ⟨files, hf, he⟩, hk⟩

theorem no_service_of_duplicate (env : Env) (fl : Flags) (c0 : Config)
    (chains : List (List String)) (cn : String)
    (hc : fl.configFile ≠ "") (hr : env.readConfigFile fl.configFile = Except.ok c0)
    (hch : c0.chains = some chains)
    (hl : assembleBundles env chains Registry.empty = LoopResult.duplicate cn) :
    (main env fl).2 = Outcome.exit 1 ∧ (∀ e ∈ (main env fl).1, isServiceEvent e = false) ∧
      Event.fail (duplicateMsg env.isPrintWide cn) ∈ (main env fl).1 ∧
      ∀ msg, Event.fail msg ∈ (main env fl).1 → msg = duplicateMsg env.isPrintWide cn := by
  rw [main_read_ok env fl c0 hc hr,
    bootstrap_duplicate env (applyOverrides fl c0) chains cn hch hl]
  refine ⟨cmdFail_outcome _ _ _, fun e he => ?_, ?_, fun msg hm => ?_⟩
  · rcases (mem_after _ _ _).mp he with h | h
    · exact preamble_no_service env fl _ e h
    · exact cmdFail_no_service env _ e h
  · exact (mem_after _ _ _).mpr (Or.inr (fail_mem_cmdFail _ _ _))
  · rcases (mem_after _ _ _).mp hm with h | h
    · simp [preamble] at h
    · rcases cmdFail_events _ _ _ _ h with h1 | h1
      · simp at h1
      · cases h1; rfl

/-! ## The claims -/

/-- C1: when every configured chain loads with a non-empty certificate
sequence and the Issuer-IDs of the first certificates are pairwise distinct,
the loop of `main` ends with a map whose keys are exactly the Issuer-IDs of
the chains' first certificates, each mapped to the CT bundle of the whole
chain it was derived from, and that map is the one `main` hands to
`publisher.New`. -/
theorem registry_assembly (env : Env) (chains : List (List String))
    (hall : AllLoad env chains) (hd : Distinct env chains) :
    ∃ m, assembleBundles env chains Registry.empty = LoopResult.ok m ∧
      (∀ k, k ∈ m.keys ↔ ∃ files ∈ chains, firstID env files = some k) ∧
      (∀ files ∈ chains, ∀ c cs, env.loadChain files = Except.ok (c :: cs) →
        m.lookup (env.nameID c) = some (env.getCTBundleForChain (c :: cs))) ∧
      (∀ fl c0, fl.configFile ≠ "" → env.readConfigFile fl.configFile = Except.ok c0 →
        c0.chains = some chains →
        (∀ b ua, Event.publisherNew b ua ∈ (main env fl).1 → b = m) ∧
        (env.tlsLoad c0.tls = none →
          Event.publisherNew m (resolveUserAgent c0.userAgent) ∈ (main env fl).1)) := by
  refine ⟨registryOf env chains, assembleBundles_ok env chains hall hd,
    registryOf_mem_keys env chains, ?_, ?_⟩
  · intro files hf c cs hl
    rw [registryOf_lookup_iff env chains hd]
    exact ⟨files, hf, by simp [entryOf, hl]⟩
  · intro fl c0 hc hr hch
    rw [main_read_ok env fl c0 hc hr,
      bootstrap_of_loop env (applyOverrides fl c0) chains _ hch (assembleBundles_ok env chains hall hd)]
    constructor
    · intro b ua h
      rcases (mem_after _ _ _).mp h with h1 | h1
      · have := preamble_no_service env fl _ _ h1
        simp [isServiceEvent] at this
      · exact (publisherNew_mem_serve env _ _ b ua h1).1
    · intro htls
      exact (mem_after _ _ _).mpr (Or.inr (publisherNew_mem_serve_of_tls env _ _ htls))

theorem registry_assembly_witness :
    AllLoad envTwo twoChains ∧
    Distinct envTwo twoChains ∧
    ∃ m, assembleBundles envTwo twoChains Registry.empty
        = LoopResult.ok m ∧
      (∀ k, k ∈ m.keys ↔
        ∃ files ∈ twoChains, firstID envTwo files = some k) ∧
      (∀ files ∈ twoChains, ∀ c cs,
        envTwo.loadChain files = Except.ok (c :: cs) →
        m.lookup (envTwo.nameID c) =
          some (envTwo.getCTBundleForChain (c :: cs))) ∧
      (∀ fl c0, fl.configFile ≠ "" →
        envTwo.readConfigFile fl.configFile = Except.ok c0 →
        c0.chains = some twoChains →
        (∀ b ua, Event.publisherNew b ua ∈ (main envTwo fl).1 →
          b = m) ∧
        (envTwo.tlsLoad c0.tls = none →
          Event.publisherNew m (resolveUserAgent c0.userAgent) ∈
            (main envTwo fl).1)) :=
  ⟨by decide, by decide,
    registry_assembly envTwo twoChains (by decide) (by decide)⟩

/-- C3: for a configuration whose chains all load, the loop of `main` builds
a registry with as many entries as there are configured chains if and only if
no two chains derive the same Issuer-ID from their first certificate; and
when two chains do, `main` exits with status 1 without ever reaching
`publisher.New`, the server build or the start function. -/
theorem bijection_modulo_collision (env : Env) (chains : List (List String))
    (hall : AllLoad env chains) :
    ((∃ m, assembleBundles env chains Registry.empty = LoopResult.ok m ∧
        m.size = chains.length) ↔ Distinct env chains) ∧
    (¬ Distinct env chains → ∀ fl c0, fl.configFile ≠ "" →
      env.readConfigFile fl.configFile = Except.ok c0 → c0.chains = some chains →
      (main env fl).2 = Outcome.exit 1 ∧ ∀ e ∈ (main env fl).1, isServiceEvent e = false) := by
  constructor
  · constructor
    · rintro ⟨m, hm, _⟩
      by_contra hd
      obtain ⟨cn, hcn⟩ := assembleBundles_duplicate env chains hall hd
      rw [hcn] at hm
      cases hm
    · intro hd
      refine ⟨registryOf env chains, assembleBundles_ok env chains hall hd, ?_⟩
      simp [Registry.size, registryOf, length_filterMap_entryOf env chains hall]
  · intro hd fl c0 hc hr hch
    obtain ⟨cn, hcn⟩ := assembleBundles_duplicate env chains hall hd
    have h := no_service_of_duplicate env fl c0 chains cn hc hr hch hcn
    exact ⟨h.1, h.2.1⟩

theorem bijection_modulo_collision_witness :
    AllLoad envClash clashChains ∧ ¬ Distinct envClash clashChains ∧
    demoFlags.configFile ≠ "" ∧
    (main envClash demoFlags).2 = Outcome.exit 1 ∧
    ∀ e ∈ (main envClash demoFlags).1, isServiceEvent e = false :=
  ⟨by decide, by decide, by decide,
    (bijection_modulo_collision envClash clashChains (by decide)).2 (by decide)
      demoFlags (demoConfig "" (some clashChains)) (by decide) rfl rfl⟩

/-- C6: for a conflict-free list of chains (all load, first-certificate
Issuer-IDs pairwise distinct) and any permutation of it, the loop of `main`
succeeds on both orders, and the two registries have the same keys and the
same bundle under every key. -/
theorem order_independence (env : Env) (chains chains2 : List (List String))
    (hp : chains.Perm chains2) (hall : AllLoad env chains) (hd : Distinct env chains) :
    ∃ m m2, assembleBundles env chains Registry.empty = LoopResult.ok m ∧
      assembleBundles env chains2 Registry.empty = LoopResult.ok m2 ∧
      (∀ k, k ∈ m.keys ↔ k ∈ m2.keys) ∧ (∀ k, m.lookup k = m2.lookup k) := by
  have hall2 : AllLoad env chains2 := fun f hf => hall f (hp.mem_iff.mpr hf)
  have hd2 : Distinct env chains2 := (List.Perm.nodup_iff (hp.map (firstID env))).mp hd
  refine ⟨registryOf env chains, registryOf env chains2, assembleBundles_ok env chains hall hd,
    assembleBundles_ok env chains2 hall2 hd2, fun k => ?_, fun k => ?_⟩
  · rw [registryOf_mem_keys, registryOf_mem_keys]
    constructor
    · rintro ⟨f, hf, h⟩
      exact ⟨f, hp.mem_iff.mp hf, h⟩
    · rintro ⟨f, hf, h⟩
      exact ⟨f, hp.mem_iff.mpr hf, h⟩
  · apply Option.ext
    intro v
    rw [Option.mem_def, Option.mem_def,
      registryOf_lookup_iff env chains hd, registryOf_lookup_iff env chains2 hd2]
    constructor
    · rintro ⟨f, hf, h⟩
      exact ⟨f, hp.mem_iff.mp hf, h⟩
    · rintro ⟨f, hf, h⟩
      exact ⟨f, hp.mem_iff.mpr hf, h⟩

theorem order_independence_witness :
    twoChains.Perm twoChains.reverse ∧ AllLoad envTwo twoChains ∧ Distinct envTwo twoChains ∧
    ∃ m m2, assembleBundles envTwo twoChains Registry.empty = LoopResult.ok m ∧
      assembleBundles envTwo twoChains.reverse Registry.empty = LoopResult.ok m2 ∧
      (∀ k, k ∈ m.keys ↔ k ∈ m2.keys) ∧ (∀ k, m.lookup k = m2.lookup k) :=
  ⟨(List.reverse_perm twoChains).symm, by decide, by decide,
    order_independence envTwo twoChains twoChains.reverse (List.reverse_perm twoChains).symm
      (by decide) (by decide)⟩

/-- C7: the user agent that `main` passes to `publisher.New` is never empty;
it is `"certificate-transparency-go/1.0"` when the configured `UserAgent` is
empty or absent, and the configured `UserAgent` unchanged otherwise. -/
theorem user_agent_default (env : Env) (fl : Flags) (b : Registry) (ua : String)
    (h : Event.publisherNew b ua ∈ (main env fl).1) :
    ∃ c0, env.readConfigFile fl.configFile = Except.ok c0 ∧ ua ≠ "" ∧
      (c0.userAgent = "" → ua = "certificate-transparency-go/1.0") ∧
      (c0.userAgent ≠ "" → ua = c0.userAgent) := by
  by_cases hc : fl.configFile = ""
  · rw [main_no_config env fl hc] at h
    simp at h
  · cases hr : env.readConfigFile fl.configFile with
    | error err =>
      rw [main_read_error env fl err hc hr] at h
      rcases (mem_after _ _ _).mp h with h1 | h1
      · simp at h1
      · rcases cmdFail_events _ _ _ _ h1 with h2 | h2
        · simp at h2
        · cases h2
    | ok c0 =>
      rw [main_read_ok env fl c0 hc hr] at h
      have hua : ua = resolveUserAgent c0.userAgent := by
        rcases (mem_after _ _ _).mp h with h1 | h1
        · have := preamble_no_service env fl _ _ h1
          simp [isServiceEvent] at this
        · unfold bootstrap at h1
          split at h1
          · simp at h1
          · split at h1
            · have := cmdFail_no_service env _ _ h1
              simp [isServiceEvent] at this
            · simp at h1
            · have := cmdFail_no_service env _ _ h1
              simp [isServiceEvent] at this
            · exact (publisherNew_mem_serve env _ _ b ua h1).2
      refine ⟨c0, rfl, ?_, ?_, ?_⟩
      · rw [hua]
        unfold resolveUserAgent
        split
        · decide
        · assumption
      · intro h0
        rw [hua, h0]
        rfl
      · intro h0
        rw [hua]
        simp [resolveUserAgent, h0]

theorem user_agent_default_witness :
    Event.publisherNew (registryOf envTwo twoChains) "certificate-transparency-go/1.0"
        ∈ (main envTwo demoFlags).1 ∧
    ∃ c0, envTwo.readConfigFile demoFlags.configFile = Except.ok c0 ∧
      "certificate-transparency-go/1.0" ≠ "" ∧
      (c0.userAgent = "" →
        "certificate-transparency-go/1.0" = "certificate-transparency-go/1.0") ∧
      (c0.userAgent ≠ "" → "certificate-transparency-go/1.0" = c0.userAgent) :=
  ⟨by decide,
    user_agent_default envTwo demoFlags (registryOf envTwo twoChains)
      "certificate-transparency-go/1.0" (by decide)⟩

theorem allLoad_of_ok (env : Env) (chains : List (List String)) :
    ∀ m m2 : Registry, assembleBundles env chains m = LoopResult.ok m2 → AllLoad env chains := by
  induction chains with
  | nil => intro _ _ _ f hf; simp at hf
  | cons files rest ih =>
    intro m m2 h
    simp only [assembleBundles] at h
    cases hl : env.loadChain files with
    | error e => simp [hl] at h
    | ok chain =>
      cases chain with
      | nil => simp [hl] at h
      | cons c cs =>
        simp only [hl] at h
        split at h
        · cases h
        · intro f hf
          rcases List.mem_cons.mp hf with h1 | h1
          · subst h1
            simp [loads, entryOf, hl]
          · exact ih _ _ h f h1

theorem contains_append_left (a b t : String) (h : Contains a t) : Contains (a ++ b) t := by
  unfold Contains at h ⊢
  rw [String.data_append]
  exact h.trans (List.prefix_append _ _).isInfix

theorem contains_append_right (a b t : String) (h : Contains b t) : Contains (a ++ b) t := by
  unfold Contains at h ⊢
  rw [String.data_append]
  exact h.trans (List.suffix_append _ _).isInfix

theorem contains_self (s : String) : Contains s s :=
  List.infix_refl _

theorem flatten_escaped_plain (wide : Char → Bool) (cs : List Char)
    (h : ∀ ch ∈ cs, ch ≠ dquote ∧ ch ≠ bslash ∧ isPrint wide ch = true) :
    (cs.map (appendEscapedRune wide)).flatten = cs := by
  induction cs with
  | nil => rfl
  | cons c cs ih =>
    obtain ⟨h1, h2, h3⟩ := h c (List.mem_cons_self _ _)
    have hc : appendEscapedRune wide c = [c] := by
      simp [appendEscapedRune, h1, h2, h3]
    simp [hc, ih (fun ch hch => h ch (List.mem_cons_of_mem _ hch))]

theorem quote_contains_plain (wide : Char → Bool) (s : String)
    (h : ∀ ch ∈ s.data, ch ≠ dquote ∧ ch ≠ bslash ∧ isPrint wide ch = true) :
    Contains (quote wide s) s := by
  unfold Contains quote
  rw [flatten_escaped_plain wide s.data h]
  exact ⟨[dquote], [dquote], by simp⟩

theorem loop_duplicate_at (env : Env) (pre post : List (List String)) (files : List String)
    (issuer : Certificate) (rest : List Certificate)
    (hall : AllLoad env pre) (hd : Distinct env pre)
    (hl : env.loadChain files = Except.ok (issuer :: rest))
    (hdup : ∃ earlier ∈ pre, firstID env earlier = some (env.nameID issuer)) :
    assembleBundles env (pre ++ files :: post) Registry.empty =
      LoopResult.duplicate issuer.subjectCommonName := by
  rw [assembleBundles_append, assembleBundles_ok env pre hall hd]
  have hk : (registryOf env pre).contains (env.nameID issuer) = true := by
    by_contra hn
    have hn2 : (registryOf env pre).contains (env.nameID issuer) = false := by simpa using hn
    rw [Registry.contains_false_iff] at hn2
    exact hn2 ((registryOf_mem_keys env pre _).mpr hdup)
  simp [assembleBundles, hl, hk]

/-- C2 (amended): when chain j loads and its first certificate has the
Issuer-ID of an earlier registered chain, `main` exits with status 1 without
constructing the service, and its one fatal diagnostic contains the phrase
"multiple chains configured for issuer" and the common name of chain j's first
certificate as the verb `%q` prints it (quoted and escaped); the common name
occurs verbatim whenever it has no double quote, no backslash and no
non-printable character. -/
theorem duplicate_issuer_fatal (env : Env) (fl : Flags) (c0 : Config)
    (pre post : List (List String)) (files : List String)
    (issuer : Certificate) (rest : List Certificate)
    (hc : fl.configFile ≠ "") (hr : env.readConfigFile fl.configFile = Except.ok c0)
    (hch : c0.chains = some (pre ++ files :: post))
    (hall : AllLoad env pre) (hd : Distinct env pre)
    (hl : env.loadChain files = Except.ok (issuer :: rest))
    (hdup : ∃ earlier ∈ pre, firstID env earlier = some (env.nameID issuer)) :
    (main env fl).2 = Outcome.exit 1 ∧
    (∀ e ∈ (main env fl).1, isServiceEvent e = false) ∧
    ∃ msg, Event.fail msg ∈ (main env fl).1 ∧
      (∀ msg2, Event.fail msg2 ∈ (main env fl).1 → msg2 = msg) ∧
      Contains msg "multiple chains configured for issuer" ∧
      Contains msg (quote env.isPrintWide issuer.subjectCommonName) ∧
      ((∀ ch ∈ issuer.subjectCommonName.data,
          ch ≠ dquote ∧ ch ≠ bslash ∧ isPrint env.isPrintWide ch = true) →
        Contains msg issuer.subjectCommonName) := by
  have hloop := loop_duplicate_at env pre post files issuer rest hall hd hl hdup
  obtain ⟨h1, h2, h3, h4⟩ :=
    no_service_of_duplicate env fl c0 _ issuer.subjectCommonName hc hr hch hloop
  refine ⟨h1, h2, _, h3, h4, ?_, ?_, fun hplain => ?_⟩
  · exact contains_append_left _ _ _ (by decide)
  · exact contains_append_right _ _ _ (contains_self _)
  · exact contains_append_right _ _ _ (quote_contains_plain _ _ hplain)

theorem duplicate_issuer_fatal_witness :
    (main envClash demoFlags).2 = Outcome.exit 1 ∧
    (∀ e ∈ (main envClash demoFlags).1, isServiceEvent e = false) ∧
    ∃ msg, Event.fail msg ∈ (main envClash demoFlags).1 ∧
      (∀ msg2, Event.fail msg2 ∈ (main envClash demoFlags).1 → msg2 = msg) ∧
      Contains msg "multiple chains configured for issuer" ∧
      Contains msg (quote envClash.isPrintWide certA.subjectCommonName) ∧
      ((∀ ch ∈ certA.subjectCommonName.data,
          ch ≠ dquote ∧ ch ≠ bslash ∧ isPrint envClash.isPrintWide ch = true) →
        Contains msg certA.subjectCommonName) :=
  duplicate_issuer_fatal envClash demoFlags (demoConfig "" (some clashChains))
    [["a", "x"], ["b", "r"]] [] ["a", "r"] certA [certRoot]
    (by decide) rfl rfl (by decide) (by decide) rfl ⟨["a", "x"], by decide, by decide⟩

/-- C2 (as stated, refuted): two chains load with the same first certificate,
whose common name is a, double quote, b; `main` exits with status 1 and its
diagnostic is the text Got multiple chains configured for issuer followed by
the quoted form, in which a backslash stands between a and the double quote,
so no diagnostic of the run contains the common name. -/
theorem duplicate_issuer_common_name_escaped :
    AllLoad envQuote quoteChains ∧
    firstID envQuote ["q", "x"] = firstID envQuote ["q", "r"] ∧
    (main envQuote demoFlags).2 = Outcome.exit 1 ∧
    messages (main envQuote demoFlags).1 =
      ["v", "Got multiple chains configured for issuer " ++
        String.mk [dquote, 'a', bslash, dquote, 'b', dquote]] ∧
    ∀ msg ∈ messages (main envQuote demoFlags).1, ¬ Contains msg certQ.subjectCommonName := by
  decide

theorem serve_events (env : Env) (c : Config) (m : Registry) (e : Event)
    (h : e ∈ (serve env c m).1) :
    e = Event.tlsLoad ∨ e = Event.publisherNew m c.userAgent ∨
      e = Event.serverBuild c.grpcAddress ∨ e = Event.start ∨ e = Event.oTelShutdown ∨
      ∃ msg, e = Event.fail msg := by
  have hf : ∀ msg, e ∈ (cmdFail env [Event.oTelShutdown] msg).1 →
      e = Event.oTelShutdown ∨ ∃ msg, e = Event.fail msg := by
    intro msg hm
    rcases cmdFail_events _ _ _ _ hm with h1 | h1
    · left; simpa using h1
    · right; exact ⟨msg, h1⟩
  unfold serve at h
  split at h
  · rcases (mem_after _ _ _).mp h with h1 | h1
    · simp only [List.mem_singleton] at h1; tauto
    · rcases hf _ h1 with h2 | h2 <;> tauto
  · split at h
    · rcases (mem_after _ _ _).mp h with h1 | h1
      · simp only [List.mem_cons, List.mem_singleton, List.not_mem_nil, or_false] at h1; tauto
      · rcases hf _ h1 with h2 | h2 <;> tauto
    · split at h
      · rcases (mem_after _ _ _).mp h with h1 | h1
        · simp only [List.mem_cons, List.mem_singleton, List.not_mem_nil, or_false] at h1; tauto
        · rcases hf _ h1 with h2 | h2 <;> tauto
      · simp only [List.mem_cons, List.mem_singleton, List.not_mem_nil, or_false] at h; tauto

theorem serve_outcome_fail (env : Env) (c : Config) (m : Registry)
    (h : env.tlsLoad c.tls ≠ none ∨ env.build c.grpcAddress ≠ none ∨ env.start ≠ none) :
    (serve env c m).2 = Outcome.exit 1 := by
  unfold serve
  cases h1 : env.tlsLoad c.tls with
  | some err => exact cmdFail_outcome _ _ _
  | none =>
    cases h2 : env.build c.grpcAddress with
    | some err => exact cmdFail_outcome _ _ _
    | none =>
      cases h3 : env.start with
      | some err => exact cmdFail_outcome _ _ _
      | none => simp [h1, h2, h3] at h

theorem serve_exit_zero (env : Env) (c : Config) (m : Registry)
    (h : (serve env c m).2 = Outcome.exit 0) :
    env.tlsLoad c.tls = none ∧ env.build c.grpcAddress = none ∧ env.start = none := by
  by_contra hn
  have h1 : env.tlsLoad c.tls ≠ none ∨ env.build c.grpcAddress ≠ none ∨ env.start ≠ none := by
    by_contra h2
    push_neg at h2
    exact hn h2
  rw [serve_outcome_fail env c m h1] at h
  cases h

theorem serve_all_ok (env : Env) (c : Config) (m : Registry)
    (h1 : env.tlsLoad c.tls = none) (h2 : env.build c.grpcAddress = none)
    (h3 : env.start = none) :
    serve env c m = ([Event.tlsLoad, Event.publisherNew m c.userAgent,
      Event.serverBuild c.grpcAddress, Event.start, Event.oTelShutdown], Outcome.exit 0) := by
  simp [serve, h1, h2, h3]

/-- C4 (amended): when `main` reaches the registry-assembly stage with
`Chains` nil (the `chains` key missing), it logs "No chain files provided",
exits with status 1 and neither constructs the publisher service nor builds
the server; an empty, non-nil `Chains` list does not take that path: the
message is not logged, the loop runs zero times, and when the TLS
configuration loads `main` constructs the service over the empty registry. -/
theorem no_chains_fatal (env : Env) (fl : Flags) (c0 : Config)
    (hc : fl.configFile ≠ "") (hr : env.readConfigFile fl.configFile = Except.ok c0) :
    (c0.chains = none →
      main env fl = (preamble env fl (applyOverrides fl c0) ++
        [Event.auditErr "No chain files provided"], Outcome.exit 1) ∧
      ∀ e ∈ (main env fl).1, isServiceEvent e = false) ∧
    (c0.chains = some [] →
      Event.auditErr "No chain files provided" ∉ (main env fl).1 ∧
      (env.tlsLoad c0.tls = none →
        Event.publisherNew Registry.empty (resolveUserAgent c0.userAgent) ∈ (main env fl).1)) := by
  rw [main_read_ok env fl c0 hc hr]
  constructor
  · intro hn
    have hb : bootstrap env (applyOverrides fl c0) =
        ([Event.auditErr "No chain files provided"], Outcome.exit 1) := by
      simp [bootstrap, applyOverrides_chains, hn]
    rw [hb]
    refine ⟨rfl, fun e he => ?_⟩
    rcases (mem_after _ _ _).mp he with h | h
    · exact preamble_no_service env fl _ e h
    · simp only [List.mem_singleton] at h
      subst h; rfl
  · intro he
    have hb : bootstrap env (applyOverrides fl c0) =
        serve env (applyOverrides fl c0) Registry.empty :=
      bootstrap_of_loop env (applyOverrides fl c0) [] _ he rfl
    rw [hb]
    constructor
    · intro hmem
      rcases (mem_after _ _ _).mp hmem with h | h
      · simp [preamble] at h
      · rcases serve_events env _ _ _ h with h1 | h1 | h1 | h1 | h1 | ⟨_, h1⟩ <;> cases h1
    · intro htls
      exact (mem_after _ _ _).mpr (Or.inr (publisherNew_mem_serve_of_tls env _ _ htls))

theorem no_chains_fatal_witness :
    demoFlags.configFile ≠ "" ∧
    main envNil demoFlags = (preamble envNil demoFlags (applyOverrides demoFlags (demoConfig "" none))
        ++ [Event.auditErr "No chain files provided"], Outcome.exit 1) ∧
    ∀ e ∈ (main envNil demoFlags).1, isServiceEvent e = false :=
  ⟨by decide, (no_chains_fatal envNil demoFlags (demoConfig "" none) (by decide) rfl).1 rfl⟩

/-- C4 (as stated, refuted): with the empty list under `chains`, `main` logs
no "No chain files provided", hands the empty registry to `publisher.New`,
builds and starts the server, and exits with status 0. -/
theorem empty_chains_not_fatal :
    (demoConfig "" (some [])).chains = some [] ∧
    main envEmpty demoFlags =
      ([Event.readConfig "cfg", Event.featuresSet, Event.setBlockProfileRate 0,
        Event.statsAndLogging ":8001", Event.info "v", Event.tlsLoad,
        Event.publisherNew Registry.empty "certificate-transparency-go/1.0",
        Event.serverBuild "127.0.0.1:8000", Event.start, Event.oTelShutdown],
       Outcome.exit 0) := by
  decide

/-- C9 (the code at the failing input): with no `chains` key, `main` calls
`cmd.StatsAndLogging`, defers `oTelShutdown`, logs "No chain files provided"
and calls `os.Exit(1)`, which ends the process without running the deferred
call: `oTelShutdown` is not among the events of the run. -/
theorem no_chains_skips_shutdown :
    main envNil demoFlags =
      ([Event.readConfig "cfg", Event.featuresSet, Event.setBlockProfileRate 0,
        Event.statsAndLogging ":8001", Event.info "v",
        Event.auditErr "No chain files provided"], Outcome.exit 1) ∧
    Event.oTelShutdown ∉ (main envNil demoFlags).1 := by
  decide

theorem distinct_of_ok (env : Env) (chains : List (List String)) (m : Registry)
    (h : assembleBundles env chains Registry.empty = LoopResult.ok m) :
    AllLoad env chains ∧ Distinct env chains := by
  have hall := allLoad_of_ok env chains _ _ h
  refine ⟨hall, ?_⟩
  by_contra hd
  obtain ⟨cn, hcn⟩ := assembleBundles_duplicate env chains hall hd
  rw [hcn] at h
  cases h

theorem bootstrap_exit_zero (env : Env) (c : Config)
    (h : (bootstrap env c).2 = Outcome.exit 0) :
    ∃ chains m, c.chains = some chains ∧
      assembleBundles env chains Registry.empty = LoopResult.ok m ∧
      env.tlsLoad c.tls = none ∧ env.build c.grpcAddress = none ∧ env.start = none := by
  unfold bootstrap at h
  cases hch : c.chains with
  | none => simp [hch] at h
  | some chains =>
    simp only [hch] at h
    cases hl : assembleBundles env chains Registry.empty with
    | loadFailed err =>
      simp only [hl] at h
      rw [cmdFail_outcome] at h
      cases h
    | emptyChain => simp [hl] at h
    | duplicate cn =>
      simp only [hl] at h
      rw [cmdFail_outcome] at h
      cases h
    | ok m =>
      simp only [hl] at h
      exact ⟨chains, m, rfl, hl, serve_exit_zero env c m h⟩

/-- The exit status of `main` once `flag.Parse()` has returned with the flag
values `fl`. -/
theorem exit_status_after_parse (env : Env) (fl : Flags) :
    ((main env fl).2 = Outcome.exit 0 →
      fl.configFile ≠ "" ∧ ∃ c0 chains m, env.readConfigFile fl.configFile = Except.ok c0 ∧
        c0.chains = some chains ∧ AllLoad env chains ∧ Distinct env chains ∧
        assembleBundles env chains Registry.empty = LoopResult.ok m ∧
        env.tlsLoad c0.tls = none ∧ env.build (applyOverrides fl c0).grpcAddress = none ∧
        env.start = none) ∧
    (fl.configFile = "" → main env fl = ([Event.usage], Outcome.exit 1)) ∧
    (fl.configFile ≠ "" →
      (∀ err, env.readConfigFile fl.configFile = Except.error err →
        (main env fl).2 = Outcome.exit 1) ∧
      (∀ c0, env.readConfigFile fl.configFile = Except.ok c0 →
        (c0.chains = none → (main env fl).2 = Outcome.exit 1) ∧
        (∀ chains, c0.chains = some chains →
          (∀ err, assembleBundles env chains Registry.empty = LoopResult.loadFailed err →
            (main env fl).2 = Outcome.exit 1) ∧
          (∀ cn, assembleBundles env chains Registry.empty = LoopResult.duplicate cn →
            (main env fl).2 = Outcome.exit 1) ∧
          (∀ m, assembleBundles env chains Registry.empty = LoopResult.ok m →
            (env.tlsLoad c0.tls ≠ none → (main env fl).2 = Outcome.exit 1) ∧
            (env.build (applyOverrides fl c0).grpcAddress ≠ none →
              (main env fl).2 = Outcome.exit 1) ∧
            (env.tlsLoad c0.tls = none → env.build (applyOverrides fl c0).grpcAddress = none →
              env.start = none → (main env fl).2 = Outcome.exit 0))))) := by
  refine ⟨fun h => ?_, main_no_config env fl, fun hc => ⟨fun err hr => ?_, fun c0 hr => ?_⟩⟩
  · by_cases hc : fl.configFile = ""
    · rw [main_no_config env fl hc] at h
      cases h
    · refine ⟨hc, ?_⟩
      cases hr : env.readConfigFile fl.configFile with
      | error err =>
        rw [main_read_error env fl err hc hr, after_outcome, cmdFail_outcome] at h
        cases h
      | ok c0 =>
        rw [main_read_ok env fl c0 hc hr, after_outcome] at h
        obtain ⟨chains, m, h1, h2, h3, h4, h5⟩ := bootstrap_exit_zero env _ h
        obtain ⟨h6, h7⟩ := distinct_of_ok env chains m h2
        exact ⟨c0, chains, m, rfl, h1, h6, h7, h2, h3, h4, h5⟩
  · rw [main_read_error env fl err hc hr, after_outcome, cmdFail_outcome]
  · rw [main_read_ok env fl c0 hc hr, after_outcome]
    refine ⟨fun hn => ?_, fun chains hch => ⟨fun err hl => ?_, fun cn hl => ?_, fun m hl => ?_⟩⟩
    · simp [bootstrap, applyOverrides_chains, hn]
    · have hb : bootstrap env (applyOverrides fl c0) =
          cmdFail env [Event.oTelShutdown] (failOnErrorMsg "failed to load chain." err) := by
        simp [bootstrap, applyOverrides_chains, hch, hl]
      rw [hb, cmdFail_outcome]
    · rw [bootstrap_duplicate env (applyOverrides fl c0) chains cn hch hl, cmdFail_outcome]
    · rw [bootstrap_of_loop env (applyOverrides fl c0) chains m hch hl]
      refine ⟨fun h => ?_, fun h => ?_, fun h1 h2 h3 => ?_⟩
      · exact serve_outcome_fail env (applyOverrides fl c0) m (Or.inl h)
      · exact serve_outcome_fail env (applyOverrides fl c0) m (Or.inr (Or.inl h))
      · rw [serve_all_ok env (applyOverrides fl c0) m h1 h2 h3]

theorem beforeLogging_preamble (env : Env) (fl : Flags) (c : Config) (r : Run) :
    beforeLogging (after (preamble env fl c) r).1 =
      [Event.readConfig fl.configFile, Event.featuresSet,
       Event.setBlockProfileRate c.blockProfileRate] := by
  simp [beforeLogging, after, preamble, List.takeWhile, isStatsAndLogging]

/-- C10 (amended): on every execution path of `main` on which the
configuration file was read, no diagnostic (version line, audit message or
fatal message) is emitted before `cmd.StatsAndLogging` has been called; the
usage text for a missing `--config` and the fatal message for a configuration
read failure are emitted on paths that never call `cmd.StatsAndLogging`. -/
theorem logging_before_diagnostics (env : Env) (fl : Flags) :
    (∀ c0, fl.configFile ≠ "" → env.readConfigFile fl.configFile = Except.ok c0 →
      (∃ d, Event.statsAndLogging d ∈ (main env fl).1) ∧
      ∀ e ∈ beforeLogging (main env fl).1, isDiagnostic e = false) ∧
    (fl.configFile = "" → beforeLogging (main env fl).1 = [Event.usage]) ∧
    (∀ err, fl.configFile ≠ "" → env.readConfigFile fl.configFile = Except.error err →
      beforeLogging (main env fl).1 =
        [Event.readConfig fl.configFile,
         Event.fail (failOnErrorMsg "Reading JSON config file into config structure" err)]) := by
  refine ⟨fun c0 hc hr => ?_, fun hc => ?_, fun err hc hr => ?_⟩
  · rw [main_read_ok env fl c0 hc hr]
    refine ⟨⟨(applyOverrides fl c0).debugAddr,
      (mem_after _ _ _).mpr (Or.inl (by simp [preamble]))⟩, fun e he => ?_⟩
    rw [beforeLogging_preamble] at he
    simp only [List.mem_cons, List.mem_singleton, List.not_mem_nil, or_false] at he
    rcases he with h | h | h <;> subst h <;> rfl
  · rw [main_no_config env fl hc]
    rfl
  · rw [main_read_error env fl err hc hr]
    unfold cmdFail
    split <;> rfl

theorem logging_before_diagnostics_witness :
    demoFlags.configFile ≠ "" ∧
    (∃ d, Event.statsAndLogging d ∈ (main envClash demoFlags).1) ∧
    ∀ e ∈ beforeLogging (main envClash demoFlags).1, isDiagnostic e = false :=
  ⟨by decide,
    (logging_before_diagnostics envClash demoFlags).1 (demoConfig "" (some clashChains))
      (by decide) rfl⟩

/-- C10 (as stated, refuted): without `--config`, `main` prints the usage
text and exits, and with an unreadable configuration file it emits the fatal
message and exits; in both runs a diagnostic is emitted and
`cmd.StatsAndLogging` is never called. -/
theorem diagnostics_without_logging :
    main envTwo noFlags = ([Event.usage], Outcome.exit 1) ∧
    (beforeLogging (main envTwo noFlags).1).any isDiagnostic = true ∧
    (main envTwo noFlags).1.any isStatsAndLogging = false ∧
    main envTwo badFlags =
      ([Event.readConfig "nope",
        Event.fail "Reading JSON config file into config structure: open failed"],
       Outcome.exit 1) ∧
    (beforeLogging (main envTwo badFlags).1).any isDiagnostic = true ∧
    (main envTwo badFlags).1.any isStatsAndLogging = false := by
  decide

theorem parseTag_chainsTag :
    splitDive (parseTag chainsTag) = [[Rule.min 1], [Rule.min 2], [Rule.required]] := by
  decide

/-- C5: under the tag `min=1,dive,min=2,dive,required` a `Chains` value is
accepted if and only if the outer list has at least one chain, every chain has
at least two paths and every path is a non-empty string; a chain of exactly
two non-empty paths is accepted, and a chain of length 1, an empty or missing
chains list, and any empty path are rejected. -/
theorem chains_validation (chains : Option (List (List String))) :
    (validateChains chainsTag chains = true ↔
      (1 ≤ (chains.getD []).length ∧
        ∀ chain ∈ chains.getD [], 2 ≤ chain.length ∧ ∀ path ∈ chain, path ≠ "")) ∧
    (∀ p q : String, p ≠ "" → q ≠ "" → validateChains chainsTag (some [[p, q]]) = true) ∧
    (∀ (p : String) (rest : List (List String)),
      validateChains chainsTag (some ([p] :: rest)) = false) ∧
    validateChains chainsTag (some []) = false ∧
    validateChains chainsTag none = false ∧
    (∀ cs : List (List String), (∃ chain ∈ cs, "" ∈ chain) →
      validateChains chainsTag (some cs) = false) := by
  have key : ∀ cs : Option (List (List String)), validateChains chainsTag cs = true ↔
      (1 ≤ (cs.getD []).length ∧
        ∀ chain ∈ cs.getD [], 2 ≤ chain.length ∧ ∀ path ∈ chain, path ≠ "") := by
    intro cs
    unfold validateChains
    rw [parseTag_chainsTag]
    simp [sliceRule, stringRule]
  refine ⟨key chains, fun p q hp hq => ?_, fun p rest => ?_, ?_, ?_, fun cs h => ?_⟩
  · rw [key]
    simp [hp, hq]
  · rw [← Bool.not_eq_true, key]
    simp
  · rw [← Bool.not_eq_true, key]
    simp
  · rw [← Bool.not_eq_true, key]
    simp
  · rw [← Bool.not_eq_true, key]
    obtain ⟨chain, hc, he⟩ := h
    intro hk
    exact (hk.2 chain hc).2 "" he rfl

theorem chains_validation_witness :
    ("i.pem" : String) ≠ "" ∧ ("r.pem" : String) ≠ "" ∧
    validateChains chainsTag (some [["i.pem", "r.pem"]]) = true ∧
    (∃ chain ∈ [["i.pem", ""]], "" ∈ chain) ∧
    validateChains chainsTag (some [["i.pem", ""]]) = false :=
  ⟨by decide, by decide,
    (chains_validation none).2.1 "i.pem" "r.pem" (by decide) (by decide),
    ⟨["i.pem", ""], by decide, by decide⟩,
    (chains_validation none).2.2.2.2.2 [["i.pem", ""]] ⟨["i.pem", ""], by decide, by decide⟩⟩

theorem mainOnArgs_ok (env : Env) (args : List String) (fl : Flags)
    (h : flagParse args = ParseResult.ok fl) : mainOnArgs env args = main env fl := by
  simp [mainOnArgs, h]

/-- C8 (amended): over all execution paths, `main` exits with status 0 only
if `flag.Parse()` ended the process after `-h` or `-help` (usage text alone),
or the command line parsed, `--config` was given, the configuration was read,
`Chains` is not nil, every chain loaded, no issuer was duplicated, the TLS
configuration loaded, the server was built and the start function returned
without error; it exits with status 2, after the error and the usage text
alone, when `flag.Parse()` rejects the command line; and when the command line
parses it exits with status 1, after the usage text alone, if `--config` is
absent, and with status 1 on a configuration read failure, nil chains, a
chain-load failure, a duplicate issuer, a TLS failure and a server-setup
failure. -/
theorem exit_status_all_paths (env : Env) (args : List String) :
    (flagParse args = ParseResult.help →
      mainOnArgs env args = ([Event.usage], Outcome.exit 0)) ∧
    (∀ msg, flagParse args = ParseResult.failed msg →
      mainOnArgs env args = ([Event.flagError msg, Event.usage], Outcome.exit 2)) ∧
    ((mainOnArgs env args).2 = Outcome.exit 0 →
      flagParse args = ParseResult.help ∨
      ∃ fl c0 chains m, flagParse args = ParseResult.ok fl ∧ fl.configFile ≠ "" ∧
        env.readConfigFile fl.configFile = Except.ok c0 ∧
        c0.chains = some chains ∧ AllLoad env chains ∧ Distinct env chains ∧
        assembleBundles env chains Registry.empty = LoopResult.ok m ∧
        env.tlsLoad c0.tls = none ∧ env.build (applyOverrides fl c0).grpcAddress = none ∧
        env.start = none) ∧
    (∀ fl, flagParse args = ParseResult.ok fl →
      (fl.configFile = "" → mainOnArgs env args = ([Event.usage], Outcome.exit 1)) ∧
      (fl.configFile ≠ "" →
        (∀ err, env.readConfigFile fl.configFile = Except.error err →
          (mainOnArgs env args).2 = Outcome.exit 1) ∧
        (∀ c0, env.readConfigFile fl.configFile = Except.ok c0 →
          (c0.chains = none → (mainOnArgs env args).2 = Outcome.exit 1) ∧
          (∀ chains, c0.chains = some chains →
            (∀ err, assembleBundles env chains Registry.empty = LoopResult.loadFailed err →
              (mainOnArgs env args).2 = Outcome.exit 1) ∧
            (∀ cn, assembleBundles env chains Registry.empty = LoopResult.duplicate cn →
              (mainOnArgs env args).2 = Outcome.exit 1) ∧
            (∀ m, assembleBundles env chains Registry.empty = LoopResult.ok m →
              (env.tlsLoad c0.tls ≠ none → (mainOnArgs env args).2 = Outcome.exit 1) ∧
              (env.build (applyOverrides fl c0).grpcAddress ≠ none →
                (mainOnArgs env args).2 = Outcome.exit 1) ∧
              (env.tlsLoad c0.tls = none →
                env.build (applyOverrides fl c0).grpcAddress = none →
                env.start = none → (mainOnArgs env args).2 = Outcome.exit 0)))))) := by
  refine ⟨fun h => by simp [mainOnArgs, h], fun msg h => by simp [mainOnArgs, h],
    fun h => ?_, fun fl hp => ?_⟩
  · cases hp : flagParse args with
    | help => exact Or.inl rfl
    | failed msg =>
      simp [mainOnArgs, hp] at h
    | ok fl =>
      rw [mainOnArgs_ok env args fl hp] at h
      obtain ⟨hc, c0, chains, m, h1⟩ := (exit_status_after_parse env fl).1 h
      exact Or.inr ⟨fl, c0, chains, m, rfl, hc, h1⟩
  · rw [mainOnArgs_ok env args fl hp]
    exact (exit_status_after_parse env fl).2

theorem exit_status_all_paths_witness :
    flagParse ["--config", "cfg"] = ParseResult.ok demoFlags ∧
    (mainOnArgs envTwo ["--config", "cfg"]).2 = Outcome.exit 0 ∧
    (flagParse ["--config", "cfg"] = ParseResult.help ∨
      ∃ fl c0 chains m, flagParse ["--config", "cfg"] = ParseResult.ok fl ∧
        fl.configFile ≠ "" ∧ envTwo.readConfigFile fl.configFile = Except.ok c0 ∧
        c0.chains = some chains ∧ AllLoad envTwo chains ∧ Distinct envTwo chains ∧
        assembleBundles envTwo chains Registry.empty = LoopResult.ok m ∧
        envTwo.tlsLoad c0.tls = none ∧
        envTwo.build (applyOverrides fl c0).grpcAddress = none ∧
        envTwo.start = none) ∧
    flagParse ["--addr", "0.0.0.0:9000"] = ParseResult.ok ⟨"0.0.0.0:9000", "", ""⟩ ∧
    mainOnArgs envTwo ["--addr", "0.0.0.0:9000"] = ([Event.usage], Outcome.exit 1) ∧
    flagParse ["-h"] = ParseResult.help ∧
    mainOnArgs envTwo ["-h"] = ([Event.usage], Outcome.exit 0) :=
  ⟨by decide, by decide,
    (exit_status_all_paths envTwo ["--config", "cfg"]).2.2.1 (by decide),
    by decide,
    ((exit_status_all_paths envTwo ["--addr", "0.0.0.0:9000"]).2.2.2
      ⟨"0.0.0.0:9000", "", ""⟩ (by decide)).1 rfl,
    by decide,
    (exit_status_all_paths envTwo ["-h"]).1 (by decide)⟩

/-- C8 (as stated, refuted): on the command line `--help`, `main` prints the
usage text and exits with status 0 without reading a configuration or calling
the start function; on the command line `--bogus`, where `--config` is absent,
it exits with status 2, not 1. -/
theorem help_exits_zero_without_start :
    mainOnArgs envTwo ["--help"] = ([Event.usage], Outcome.exit 0) ∧
    (mainOnArgs envTwo ["--help"]).1.any isServiceEvent = false ∧
    mainOnArgs envTwo ["--bogus"] =
      ([Event.flagError "flag provided but not defined: -bogus", Event.usage],
       Outcome.exit 2) := by
  decide

end BoulderPublisher
